import Mathlib

/-!
# Verification of the Kaikas web3 provider request-dispatch engine

Shallow embedding of `src/index.ts` (class `KaikasWeb3Provider`).  JavaScript
values are modelled by the inductive `Val`; promises by the three-valued
outcome `POutcome` (resolved / rejected / forever pending); the external
collaborators (the Kaikas wallet connection, the caver chain client and the
subscription manager) are an environment `Env` of oracle functions, as the
spec treats them as interface boundaries.  The only mutable field of the
class, `_addresses`, is threaded explicitly where it is read or written.

Method-name constants come from the repository's `JSONRPC.ts`, which is not
part of the staged sources; they are the standard Ethereum JSON-RPC names the
spec's translation table refers to (eth_accounts, net_version, eth_chainId,
personal_sign, ..., eth_subscribe, eth_unsubscribe).
-/

set_option maxHeartbeats 1000000

namespace KaikasProvider

/-- A JavaScript runtime value (the fragment the provider manipulates).
Objects are ordered association lists, mirroring JS property order. -/
inductive Val where
  | undefined : Val
  | null : Val
  | nan : Val
  | bool : Bool → Val
  | num : Int → Val
  | str : String → Val
  | arr : List Val → Val
  | obj : List (String × Val) → Val
deriving Repr

/-- JS strict equality `v === s` against a string literal `s`. -/
def Val.isStr : Val → String → Bool
  | .str t, s => t = s
  | _, _ => false

/-- JavaScript truthiness: `undefined`, `null`, `NaN`, `false`, `0` and the
empty string are falsy; every object and array is truthy. -/
def truthy : Val → Bool
  | .undefined => false
  | .null => false
  | .nan => false
  | .bool b => b
  | .num n => decide (n ≠ 0)
  | .str s => decide (s ≠ "")
  | .arr _ => true
  | .obj _ => true

/-- Property read on a value known not to be `null`/`undefined`: field lookup
on objects, `undefined` on primitives and missing fields. -/
def getField : Val → String → Val
  | .obj fs, k => (fs.lookup k).getD .undefined
  | _, _ => .undefined

/-- Errors thrown or carried through promise rejections. -/
inductive Err where
  /-- a plain `Error`-like object; the argument is its `message` property -/
  | error : Val → Err
  /-- a non-`Error` JS value used as a throw/rejection payload
      (e.g. `reject(err)` with `err` undefined) -/
  | raw : Val → Err
  /-- `ethErrors.rpc.invalidParams({message})` -/
  | ethInvalidParams : String → Err
  /-- `ethErrors.rpc.invalidRequest({message})` -/
  | ethInvalidRequest : String → Err
  /-- `ethErrors.provider.userRejectedRequest(message)` -/
  | ethUserRejected : String → Err
  /-- a TypeError raised by dereferencing a property of `null`/`undefined` -/
  | typeError : Err
deriving Repr

/-- Property read in general position: dereferencing `null` or `undefined`
throws a TypeError, exactly as in JavaScript. -/
def getMember : Val → String → Except Err Val
  | .null, _ => .error .typeError
  | .undefined, _ => .error .typeError
  | v, k => .ok (getField v k)

/-- `err.message` as the catch blocks evaluate it in `typeof err.message ===
'string'`: reading the property of a nullish rejection payload throws a
TypeError (which replaces the original failure); otherwise the probe yields
the message when it is a string.  Collaborator rejections are usually
`Error`-like objects, whose `message` the `error` constructor carries; the
eth-rpc error objects carry their message directly; property reads on other
non-nullish payloads yield `undefined`, hence no message. -/
def errMessage : Err → Except Err (Option String)
  | .error (.str m) => .ok (some m)
  | .error _ => .ok none
  | .raw .undefined => .error .typeError
  | .raw .null => .error .typeError
  | .raw (.obj fs) =>
      match (fs.lookup "message").getD .undefined with
      | .str m => .ok (some m)
      | _ => .ok none
  | .raw _ => .ok none
  | .ethInvalidParams m => .ok (some m)
  | .ethInvalidRequest m => .ok (some m)
  | .ethUserRejected m => .ok (some m)
  | .typeError => .ok none

/-- Substring test on character lists (`pat` occurs inside `hay`). -/
def containsSub (hay pat : List Char) : Bool :=
  (List.range (hay.length + 1)).any fun i => pat.isPrefixOf (hay.drop i)

/-- Substring test on code lists (`pat` occurs inside `hay`). -/
def containsSubN (hay pat : List Nat) : Bool :=
  (List.range (hay.length + 1)).any fun i => pat.isPrefixOf (hay.drop i)

/-- ASCII-lowercased code point of a character. -/
def charLowerCode (c : Char) : Nat :=
  let n := c.toNat
  if 65 ≤ n ∧ n ≤ 90 then n + 32 else n

/-- Case-insensitive substring test on strings (ASCII case folding, which is
all the `/(denied|rejected)/i` test exercises). -/
def containsCI (hay pat : String) : Bool :=
  containsSubN (hay.data.map charLowerCode) (pat.data.map charLowerCode)

/-- The regex test `/(denied|rejected)/i` applied to a message string. -/
def matchesDeniedRejected (m : String) : Bool :=
  containsCI m "denied" || containsCI m "rejected"

/-- `typeof err.message === 'string' && err.message.match(/(denied|rejected)/i)`,
given a message probe that evaluated without throwing. -/
def isUserRejectionMsg : Option String → Bool
  | some m => matchesDeniedRejected m
  | none => false

/-- The value a promise is rejected with when the wallet's callback error
argument may be absent: `reject(err)` with `err === undefined` rejects with
the JS value `undefined`. -/
def rejectOf : Option Err → Err
  | some e => e
  | none => .raw .undefined

/-- `parseInt(s, 10)`: skip leading whitespace, optional sign, then the
leading run of decimal digits; `NaN` when that run is empty. -/
def digitsToNat (ds : List Char) : Nat :=
  ds.foldl (fun a c => a * 10 + (c.toNat - 48)) 0

/-- See `digitsToNat`; the JS `parseInt(s, 10)` itself. -/
def parseInt10 (s : String) : Val :=
  let cs := s.data.dropWhile fun c => c == ' ' || c == '\t' || c == '\n' || c == '\r'
  match cs with
  | '-' :: rest =>
      let ds := rest.takeWhile Char.isDigit
      if ds.isEmpty then .nan else .num (-(digitsToNat ds : Int))
  | '+' :: rest =>
      let ds := rest.takeWhile Char.isDigit
      if ds.isEmpty then .nan else .num (digitsToNat ds)
  | _ =>
      let ds := cs.takeWhile Char.isDigit
      if ds.isEmpty then .nan else .num (digitsToNat ds)

/-- JS string coercion, as used by the template literal in the watch-asset
type check.  Arrays stringify by joining their (shallowly stringified)
elements with commas; nested arrays only appear through degenerate inputs. -/
def jsToStringShallow : Val → String
  | .undefined => "undefined"
  | .null => ""
  | .nan => "NaN"
  | .bool true => "true"
  | .bool false => "false"
  | .num n => toString n
  | .str s => s
  | .arr _ => ""
  | .obj _ => "[object Object]"

/-- See `jsToStringShallow`; top-level JS `String(v)`. -/
def jsToString : Val → String
  | .null => "null"
  | .arr xs => String.intercalate "," (xs.map jsToStringShallow)
  | v => jsToStringShallow v

/-- A canonical JSON-RPC request as dispatched by the provider
(`JSONRPCRequest` of the source; `request.params || []` normalizes an absent
params field to the empty list before any handler reads it). -/
structure JSONRPCRequest where
  jsonrpc : String
  id : Int
  method : String
  params : List Val
deriving Repr

/-- The request as the JS object handed verbatim to the wallet's native
`sendAsync` by the passthrough branch. -/
def reqToVal (r : JSONRPCRequest) : Val :=
  .obj [("jsonrpc", .str r.jsonrpc), ("id", .num r.id),
        ("method", .str r.method), ("params", .arr r.params)]

/-- The object literal `{ jsonrpc: '2.0', id, result }` used everywhere a
response is assembled. -/
def mkResponseVal (id : Int) (result : Val) : Val :=
  .obj [("jsonrpc", .str "2.0"), ("id", .num id), ("result", result)]

/-- `params[i]`: indexing past the end of a JS array yields `undefined`. -/
def getParam (params : List Val) (i : Nat) : Val :=
  params.getD i .undefined

/-- Replace the first binding of `k` in place, or append one; the effect of
`{ ...res, id: v }` on an object's property list. -/
def setFields (fs : List (String × Val)) (k : String) (v : Val) : List (String × Val) :=
  match fs with
  | [] => [(k, v)]
  | (k', v') :: rest =>
      if k' = k then (k, v) :: rest else (k', v') :: setFields rest k v

/-- The spread `{ ...res, id: n }`: for objects, override the id property;
spreading a truthy primitive contributes no properties, leaving `{ id: n }`. -/
def spreadSetId (v : Val) (n : Int) : Val :=
  match v with
  | .obj fs => .obj (setFields fs "id" (.num n))
  | _ => .obj [("id", .num n)]

/-- The fate of one promise: settled (resolved/rejected) or forever pending.
A promise whose executor neither resolves nor rejects — which the dispatch
pipeline can produce — is `pending`. -/
inductive POutcome (α : Type) where
  | resolved : α → POutcome α
  | rejected : Err → POutcome α
  | pending : POutcome α
deriving Repr

/-- An `async` function's body that ran to a value or a throw, viewed as the
promise it returns. -/
def ofExcept : Except Err α → POutcome α
  | .ok a => .resolved a
  | .error e => .rejected e

/-- What a wallet-callback handler wrapped in `new Promise` does when the
wallet invokes it: settle the promise, or throw out of the callback — in
which case the promise is never settled (the exception escapes into the
wallet's own call stack). -/
inductive CbOutcome (α : Type) where
  | resolves : α → CbOutcome α
  | rejects : Err → CbOutcome α
  | throws : Err → CbOutcome α
deriving Repr

/-- The promise produced by a `new Promise` whose executor hands `resolve` /
`reject` to a wallet callback behaving as given. -/
def promiseOfCb : CbOutcome α → POutcome α
  | .resolves a => .resolved a
  | .rejects e => .rejected e
  | .throws _ => .pending

/-- The external collaborators, fixed at their interface boundary: the Kaikas
wallet connection (`kaikasProvider`), the caver chain client and the
subscription manager.  Each oracle gives the settled outcome of the
corresponding collaborator call. -/
structure Env where
  /-- `kaikasProvider.networkVersion` -/
  networkVersion : String
  /-- `kaikasProvider.selectedAddress` -/
  selectedAddress : Val
  /-- outcome of `kaikasProvider.enable()` -/
  enableRes : Except Err (List String)
  /-- the `(err, result)` pair `kaikasProvider.sendAsync(nativeReq, cb)`
      passes to its callback, per native request value -/
  kaikasSendAsyncCb : Val → Option Err × Val
  /-- the value returned (resp. exception thrown) by
      `kaikasProvider.sendAsync(request)` when called with no callback -/
  kaikasSendAsyncRet : Val → Except Err Val
  /-- `caver.klay.sign(message, account)` -/
  caverSign : Val → Val → Except Err Val
  /-- `caver.utils.recover(message, signature)` -/
  caverRecover : Val → Val → Except Err Val
  /-- `caver.klay.sendTransaction(tx)` -/
  caverSendTransaction : Val → Except Err Val
  /-- `caver.klay.signTransaction(tx)` -/
  caverSignTransaction : Val → Except Err Val
  /-- `caver.rpc.klay.getGasPrice()` -/
  caverGetGasPrice : Except Err Val
  /-- `caver.rpc.klay.getBlockNumber()` -/
  caverGetBlockNumber : Except Err Val
  /-- `caver.rpc.klay.getBlockByNumber(block, full)` -/
  caverGetBlockByNumber : Val → Val → Except Err Val
  /-- `caver.rpc.klay.getTransactionReceipt(hash)` -/
  caverGetTransactionReceipt : Val → Except Err Val
  /-- `subscriptionManager.handleRequest(request)` (resolved value or
      rejection/synchronous throw) -/
  subHandle : JSONRPCRequest → Except Err Val

/-! ## Method handlers (`_eth_*` / `_personal_*` / `_wallet_*` of the source;
the leading underscore of the source names is dropped).  Each builds its
response with the placeholder id 0; `sendRequestAsync` later overrides it. -/

/-- `_eth_accounts`: a copy of the cached address list. -/
def eth_accounts (addresses : List String) : Val :=
  .arr (addresses.map .str)

/-- `_net_version`: `parseInt(kaikasProvider.networkVersion, 10)`. -/
def net_version (env : Env) : Val :=
  parseInt10 env.networkVersion

/-- `_eth_chainId` = `getChainId()` = `kaikasProvider.networkVersion`. -/
def eth_chainId (env : Env) : Val :=
  .str env.networkVersion

/-- `_personal_sign`. -/
def personal_sign (env : Env) (params : List Val) : Except Err Val :=
  match env.caverSign (getParam params 0) (getParam params 1) with
  | .error e => .error e
  | .ok signedMessage => .ok (mkResponseVal 0 signedMessage)

/-- `_personal_ecRecover`. -/
def personal_ecRecover (env : Env) (params : List Val) : Except Err Val :=
  match env.caverRecover (getParam params 0) (getParam params 1) with
  | .error e => .error e
  | .ok address => .ok (mkResponseVal 0 address)

/-- `_eth_sendTransaction`: caver send, result is `res.transactionHash`; a
failure whose message matches `/(denied|rejected)/i` is re-signaled as the
standardized user-rejection error, anything else is rethrown. -/
def eth_sendTransaction (env : Env) (params : List Val) : Except Err Val :=
  let body : Except Err Val :=
    match env.caverSendTransaction (getParam params 0) with
    | .error e => .error e
    | .ok res =>
      match getMember res "transactionHash" with
      | .error e => .error e
      | .ok h => .ok (mkResponseVal 0 h)
  match body with
  | .ok r => .ok r
  | .error err =>
      match errMessage err with
      | .error e => .error e
      | .ok msg =>
          if isUserRejectionMsg msg then
            .error (.ethUserRejected "User denied transaction signature")
          else .error err

/-- `_eth_signTransaction`: same rejection-detection rule; the raw caver
result is the response result. -/
def eth_signTransaction (env : Env) (params : List Val) : Except Err Val :=
  let body : Except Err Val :=
    match env.caverSignTransaction (getParam params 0) with
    | .error e => .error e
    | .ok res => .ok (mkResponseVal 0 res)
  match body with
  | .ok r => .ok r
  | .error err =>
      match errMessage err with
      | .error e => .error e
      | .ok msg =>
          if isUserRejectionMsg msg then
            .error (.ethUserRejected "User denied transaction signature")
          else .error err

/-- `_eth_sendRawTransaction`: wraps the raw transaction with the wallet's
selected address as fee payer. -/
def eth_sendRawTransaction (env : Env) (params : List Val) : Except Err Val :=
  match env.caverSendTransaction
      (.obj [("senderRawTransaction", getParam params 0),
             ("feePayer", env.selectedAddress)]) with
  | .error e => .error e
  | .ok res =>
    match getMember res "transactionHash" with
    | .error e => .error e
    | .ok h => .ok (mkResponseVal 0 h)

/-- `_eth_blockNumber`. -/
def eth_blockNumber (env : Env) : Except Err Val :=
  match env.caverGetBlockNumber with
  | .error e => .error e
  | .ok blockNumber => .ok (mkResponseVal 0 blockNumber)

/-- `_eth_getBlockByNumber`. -/
def eth_getBlockByNumber (env : Env) (params : List Val) : Except Err Val :=
  match env.caverGetBlockByNumber (getParam params 0) (getParam params 1) with
  | .error e => .error e
  | .ok block => .ok (mkResponseVal 0 block)

/-- `_eth_getGasPrice`. -/
def eth_getGasPrice (env : Env) : Except Err Val :=
  match env.caverGetGasPrice with
  | .error e => .error e
  | .ok result => .ok (mkResponseVal 0 result)

/-- `_eth_getTransactionReceipt`. -/
def eth_getTransactionReceipt (env : Env) (params : List Val) : Except Err Val :=
  match env.caverGetTransactionReceipt (getParam params 0) with
  | .error e => .error e
  | .ok receipt => .ok (mkResponseVal 0 receipt)

/-- The callback handler inside `_eth_call`'s `new Promise`:
`(err, result) => { if (result.result) resolve(result) else reject(err) }`.
`result.result` is read without a null check, so a `null`/`undefined` result
argument makes the handler throw a TypeError instead of settling the
promise. -/
def eth_call_cbHandler (err : Option Err) (result : Val) : CbOutcome Val :=
  match getMember result "result" with
  | .error e => .throws e
  | .ok rv => if truthy rv then .resolves result else .rejects (rejectOf err)

/-- `_eth_call`: substitutes method `klay_call`, forwards only the first two
positional params, and resolves with the wallet's whole callback result. -/
def eth_call (env : Env) (params : List Val) : POutcome Val :=
  let native : Val :=
    .obj [("method", .str "klay_call"),
          ("params", .arr [getParam params 0, getParam params 1])]
  let (err, result) := env.kaikasSendAsyncCb native
  promiseOfCb (eth_call_cbHandler err result)

/-- The callback handler inside `watchAsset`'s `new Promise`:
`(err, result) => { if (result.result) resolve(!!result.result) else reject(err) }`;
the same unchecked `result.result` dereference as in `_eth_call`. -/
def watchAsset_cbHandler (err : Option Err) (result : Val) : CbOutcome Bool :=
  match getMember result "result" with
  | .error e => .throws e
  | .ok rv => if truthy rv then .resolves (truthy rv) else .rejects (rejectOf err)

/-- The private `watchAsset` helper: native `wallet_watchAsset` call with an
object-shaped params field. -/
def watchAsset (env : Env) (type address symbol decimals image : Val) : POutcome Bool :=
  let native : Val :=
    .obj [("method", .str "wallet_watchAsset"),
          ("params", .obj [("type", type),
                           ("options", .obj [("address", address),
                                             ("symbol", symbol),
                                             ("decimals", decimals),
                                             ("image", image)])])]
  let (err, result) := env.kaikasSendAsyncCb native
  promiseOfCb (watchAsset_cbHandler err result)

/-- `_wallet_watchAsset` plus an instrumentation flag recording whether the
wallet's native call (`watchAsset`) was reached.  Validation precedes the
native call: `type` mandatory and equal to `'ERC20'`, `options` and
`options.address` mandatory. -/
def wallet_watchAssetC (env : Env) (params : List Val) : POutcome Val × Bool :=
  let request := getParam params 0
  match getMember request "type" with
  | .error e => (.rejected e, false)
  | .ok ty =>
    if ¬truthy ty then
      (.rejected (.ethInvalidParams "Type is required"), false)
    else if ¬ty.isStr "ERC20" then
      (.rejected (.ethInvalidParams
        ("Asset of type '" ++ jsToString ty ++ "' is not supported")), false)
    else
      match getMember request "options" with
      | .error e => (.rejected e, false)
      | .ok opts =>
        if ¬truthy opts then
          (.rejected (.ethInvalidParams "Options are required"), false)
        else
          match getMember opts "address" with
          | .error e => (.rejected e, false)
          | .ok address =>
            if ¬truthy address then
              (.rejected (.ethInvalidParams "Address is required"), false)
            else
              let symbol := getField opts "symbol"
              let decimals := getField opts "decimals"
              let image := getField opts "image"
              match watchAsset env ty address symbol decimals image with
              | .resolved b => (.resolved (mkResponseVal 0 (.bool b)), true)
              | .rejected e => (.rejected e, true)
              | .pending => (.pending, true)

/-- `_wallet_watchAsset` as the dispatcher sees it. -/
def wallet_watchAsset (env : Env) (params : List Val) : POutcome Val :=
  (wallet_watchAssetC env params).fst

/-! ## Classification and dispatch -/

/-- The synchronous method set (answerable from cached state). -/
def syncMethods : List String :=
  ["eth_accounts", "net_version", "eth_chainId"]

/-- The two subscription methods. -/
def subMethods : List String :=
  ["eth_subscribe", "eth_unsubscribe"]

/-- The mapped asynchronous method set (the translation table of the spec). -/
def mappedAsyncMethods : List String :=
  ["personal_sign", "personal_ecRecover", "eth_signTransaction",
   "eth_sendRawTransaction", "eth_sendTransaction", "eth_blockNumber",
   "eth_getBlockByNumber", "eth_getGasPrice", "wallet_watchAsset",
   "eth_getTransactionReceipt", "eth_call"]

/-- `_handleSynchronousMethods`: `undefined` (`none`) for every method
outside the synchronous set. -/
def handleSynchronousMethods (env : Env) (addresses : List String)
    (req : JSONRPCRequest) : Option Val :=
  if req.method = "eth_accounts" then some (eth_accounts addresses)
  else if req.method = "net_version" then some (net_version env)
  else if req.method = "eth_chainId" then some (eth_chainId env)
  else none

/-- `_handleSubscriptionMethods`: delegates the two subscription methods to
the subscription manager, `undefined` (`none`) otherwise. -/
def handleSubscriptionMethods (env : Env) (req : JSONRPCRequest) :
    Option (Except Err Val) :=
  if req.method = "eth_subscribe" ∨ req.method = "eth_unsubscribe" then
    some (env.subHandle req)
  else none

/-- `_handleAsynchronousMethods`: the mapped translation table; any other
method is forwarded verbatim to `kaikasProvider.sendAsync(request)` — with no
callback supplied — and the value that call returns is what the enclosing
async function resolves with. -/
def handleAsynchronousMethods (env : Env) (req : JSONRPCRequest) : POutcome Val :=
  let params := req.params
  if req.method = "personal_sign" then ofExcept (personal_sign env params)
  else if req.method = "personal_ecRecover" then ofExcept (personal_ecRecover env params)
  else if req.method = "eth_signTransaction" then ofExcept (eth_signTransaction env params)
  else if req.method = "eth_sendRawTransaction" then ofExcept (eth_sendRawTransaction env params)
  else if req.method = "eth_sendTransaction" then ofExcept (eth_sendTransaction env params)
  else if req.method = "eth_blockNumber" then ofExcept (eth_blockNumber env)
  else if req.method = "eth_getBlockByNumber" then ofExcept (eth_getBlockByNumber env params)
  else if req.method = "eth_getGasPrice" then ofExcept (eth_getGasPrice env)
  else if req.method = "wallet_watchAsset" then wallet_watchAsset env params
  else if req.method = "eth_getTransactionReceipt" then ofExcept (eth_getTransactionReceipt env params)
  else if req.method = "eth_call" then eth_call env params
  else ofExcept (env.kaikasSendAsyncRet (reqToVal req))

/-- `_sendRequestAsync`: the asynchronous pipeline.  Synchronous methods
resolve immediately; subscription methods go through the subscription
manager; everything else through `_handleAsynchronousMethods`, whose resolved
value — when truthy — is re-resolved with the id overridden to the request's
(`res && resolve({ ...res, id: request.id })`); a falsy value leaves the
promise unsettled. -/
def sendRequestAsync (env : Env) (addresses : List String)
    (req : JSONRPCRequest) : POutcome Val :=
  match handleSynchronousMethods env addresses req with
  | some syncResult => .resolved (mkResponseVal req.id syncResult)
  | none =>
    match handleSubscriptionMethods env req with
    | some sub =>
      match sub with
      | .error e => .rejected e
      | .ok res =>
        match getMember res "result" with
        | .error e => .rejected e
        | .ok r => .resolved (mkResponseVal req.id r)
    | none =>
      match handleAsynchronousMethods env req with
      | .rejected e => .rejected e
      | .pending => .pending
      | .resolved res =>
          if truthy res then .resolved (spreadSetId res req.id) else .pending

/-- `_sendRequest`: the synchronous-only path used by `send` without a
callback.  Returns the response, or throws the descriptive unsupported-method
error when the synchronous handler yields `undefined`. -/
def unsupportedSyncMsg (method : String) : String :=
  "Kaikas Wallet does not support calling " ++ method ++
  " synchronously without a callback. Please provide a callback parameter to call " ++
  method ++ " asynchronously."

/-- See `unsupportedSyncMsg`; `_sendRequest` itself. -/
def sendRequest (env : Env) (addresses : List String)
    (req : JSONRPCRequest) : Except Err Val :=
  match handleSynchronousMethods env addresses req with
  | some result => .ok (mkResponseVal req.id result)
  | none => .error (.error (.str (unsupportedSyncMsg req.method)))

/-- `send(JSONRPCRequest[])` with no callback: `requests.map(r =>
this._sendRequest(r))` — the map runs left to right and the first throw
aborts the whole call. -/
def sendManySync (env : Env) (addresses : List String) :
    List JSONRPCRequest → Except Err (List Val)
  | [] => .ok []
  | r :: rest =>
      match sendRequest env addresses r with
      | .error e => .error e
      | .ok v =>
        match sendManySync env addresses rest with
        | .error e => .error e
        | .ok vs => .ok (v :: vs)

/-- `send(method, params)` / `request({method, params})`: canonical request
with placeholder id 0 through the asynchronous pipeline, resolving with the
response's `result` property. -/
def sendPromise (env : Env) (addresses : List String)
    (method : String) (params : List Val) : POutcome Val :=
  match sendRequestAsync env addresses
      { jsonrpc := "2.0", id := 0, method := method, params := params } with
  | .resolved v =>
    match getMember v "result" with
    | .error e => .rejected e
    | .ok r => .resolved r
  | .rejected e => .rejected e
  | .pending => .pending

/-- `enable()` state: the cached `_addresses` plus an instrumentation counter
of how many times the wallet's native `enable()` has been invoked. -/
structure EnableState where
  addresses : List String
  enableCalls : Nat
deriving Repr

/-- `enable()`: returns a copy of the cached addresses when nonempty without
consulting the wallet; otherwise invokes `kaikasProvider.enable()` and caches
its result. -/
def enable (env : Env) (st : EnableState) :
    Except Err (List String) × EnableState :=
  if st.addresses.length > 0 then
    (.ok st.addresses, st)
  else
    match env.enableRes with
    | .error e => (.error e, { st with enableCalls := st.enableCalls + 1 })
    | .ok res => (.ok res, { addresses := res, enableCalls := st.enableCalls + 1 })

/-! ## `sendAsync` and `Promise.all` -/

/-- Is this promise settled with a value? -/
def POutcome.isResolved : POutcome α → Bool
  | .resolved _ => true
  | _ => false

/-- The value of a resolved promise (`undefined` placeholder otherwise). -/
def resolvedValD : POutcome Val → Val
  | .resolved v => v
  | _ => .undefined

/-- A rejection, if this promise is one. -/
def toRejection : POutcome α → Option Err
  | .rejected e => some e
  | _ => none

/-- `Promise.all(ps)` observed under a completion schedule: `sched` is the
same promises listed in the order in which they settle (a permutation of
`ps`).  The first rejection in completion order rejects the whole batch; if
every member resolves, the batch resolves with the values in the original
index order, regardless of `sched`. -/
def promiseAll (ps : List (POutcome Val)) (sched : List (POutcome Val)) :
    POutcome (List Val) :=
  match sched.findSome? toRejection with
  | some e => .rejected e
  | none =>
      if ps.all POutcome.isResolved then .resolved (ps.map resolvedValD)
      else .pending

/-- `_sendMultipleRequestsAsync`: `Promise.all(requests.map(r =>
this._sendRequestAsync(r)))`, observed under completion schedule `sched`. -/
def sendMultipleRequestsAsync (env : Env) (addresses : List String)
    (reqs : List JSONRPCRequest) (sched : List (POutcome Val)) :
    POutcome (List Val) :=
  promiseAll (reqs.map (sendRequestAsync env addresses)) sched

/-- A caller-supplied callback, modelled by what it does when invoked with an
`(error, result)` pair: `none` = returns normally, `some e` = throws `e`. -/
def Callback (β : Type) : Type := Option Err → Option β → Option Err

/-- The invocations `promise.then(res => cb(null, res)).catch(err => cb(err,
null))` performs on `cb`, in order.  A resolution invokes the callback with
the result; if that invocation throws, the `catch` stage sees the thrown
error and invokes the callback a second time with it.  A rejection invokes
the callback once with the error; a pending promise never invokes it. -/
def thenCatchCb (p : POutcome β) (cb : Callback β) :
    List (Option Err × Option β) :=
  match p with
  | .pending => []
  | .rejected e => [(some e, none)]
  | .resolved r =>
      match cb none (some r) with
      | none => [(none, some r)]
      | some e => [(none, some r), (some e, none)]

/-- A single request or a batch, as `sendAsync`'s first argument. -/
inductive ReqArg where
  | single : JSONRPCRequest → ReqArg
  | batch : List JSONRPCRequest → ReqArg

/-- The caller's callback for `sendAsync`: its behavior on a single response
and on a batch of responses. -/
structure CbFuns where
  single : Callback Val
  batch : Callback (List Val)

/-- Everything observable about one `sendAsync` call: `sendAsync` is an
`async` function, so it never throws to its caller — when no function-typed
callback is supplied, its `throw new Error('callback is required')` surfaces
as the returned promise rejecting (`promiseRejected`); otherwise the request
is dispatched and the callback invoked as recorded. -/
inductive SendAsyncOutcome where
  /-- the returned promise rejects with this error; nothing is thrown
      synchronously to the caller -/
  | promiseRejected : Err → SendAsyncOutcome
  /-- a synchronous exception escaping to the caller.  A JS function call can
      in general end this way, but an `async` function cannot, and `sendAsync`
      never produces this outcome. -/
  | threw : Err → SendAsyncOutcome
  | singleDispatched : List (Option Err × Option Val) → SendAsyncOutcome
  | batchDispatched : List (Option Err × Option (List Val)) → SendAsyncOutcome
deriving Repr

/-- `sendAsync(request, callback)`: `cb = none` models a callback argument
that is not a function.  `sched` is the completion schedule `Promise.all`
observes for a batch. -/
def sendAsync (env : Env) (addresses : List String) (arg : ReqArg)
    (cb : Option CbFuns) (sched : List (POutcome Val)) : SendAsyncOutcome :=
  match cb with
  | none => .promiseRejected (.error (.str "callback is required"))
  | some cbs =>
    match arg with
    | .batch reqs =>
        .batchDispatched
          (thenCatchCb (sendMultipleRequestsAsync env addresses reqs sched) cbs.batch)
    | .single req =>
        .singleDispatched
          (thenCatchCb (sendRequestAsync env addresses req) cbs.single)

/-- How many times a `sendAsync` call invoked its callback. -/
def invocationCount : SendAsyncOutcome → Nat
  | .promiseRejected _ => 0
  | .threw _ => 0
  | .singleDispatched l => l.length
  | .batchDispatched l => l.length

/-- All methods the pipeline treats specially; anything else is passthrough. -/
def allHandledMethods : List String :=
  syncMethods ++ subMethods ++ mappedAsyncMethods

/-! ## Helper lemmas -/

theorem lookup_setFields (fs : List (String × Val)) (k : String) (v : Val) :
    (setFields fs k v).lookup k = some v := by
  induction fs with
  | nil => simp [setFields, List.lookup]
  | cons p rest ih =>
      obtain ⟨k', v'⟩ := p
      by_cases h : k' = k
      · simp [setFields, h, List.lookup]
      · simp only [setFields, if_neg h, List.lookup]
        have : (k == k') = false := by
          exact beq_eq_false_iff_ne.mpr (fun hk => h hk.symm)
        simp [this, ih]

theorem getField_spreadSetId (v : Val) (n : Int) :
    getField (spreadSetId v n) "id" = .num n := by
  cases v <;> simp [spreadSetId, getField, lookup_setFields, List.lookup]

theorem getField_mkResponseVal_id (i : Int) (r : Val) :
    getField (mkResponseVal i r) "id" = .num i := by
  simp [mkResponseVal, getField, List.lookup]

/-- Every response the asynchronous pipeline resolves with carries the id of
the request it answers (shared backbone of several claims). -/
theorem sendRequestAsync_id (env : Env) (addresses : List String)
    (req : JSONRPCRequest) (v : Val)
    (h : sendRequestAsync env addresses req = .resolved v) :
    getField v "id" = .num req.id := by
  unfold sendRequestAsync at h
  split at h
  · cases h; exact getField_mkResponseVal_id ..
  · split at h
    · split at h
      · simp at h
      · split at h
        · simp at h
        · cases h; exact getField_mkResponseVal_id ..
    · split at h
      · simp at h
      · simp at h
      · split at h
        · cases h; exact getField_spreadSetId ..
        · simp at h

theorem eq_resolved_of_isResolved {p : POutcome Val}
    (h : p.isResolved = true) : p = .resolved (resolvedValD p) := by
  cases p <;> simp_all [POutcome.isResolved, resolvedValD]

theorem toRejection_eq_none_of_isResolved {p : POutcome Val}
    (h : p.isResolved = true) : toRejection p = none := by
  cases p <;> simp_all [POutcome.isResolved, toRejection]

/-- When every member promise resolves, `Promise.all` resolves with the
values in input order, whatever the completion schedule. -/
theorem promiseAll_allResolved (ps sched : List (POutcome Val))
    (hperm : sched.Perm ps)
    (hres : ∀ p ∈ ps, p.isResolved = true) :
    promiseAll ps sched = .resolved (ps.map resolvedValD) := by
  have hfind : sched.findSome? toRejection = none := by
    rw [List.findSome?_eq_none_iff]
    intro p hp
    exact toRejection_eq_none_of_isResolved (hres p (hperm.mem_iff.mp hp))
  have hall : ps.all POutcome.isResolved = true := List.all_eq_true.mpr hres
  simp [promiseAll, hfind, hall]

theorem handleSync_none (env : Env) (addresses : List String)
    (req : JSONRPCRequest) (h : req.method ∉ syncMethods) :
    handleSynchronousMethods env addresses req = none := by
  simp [syncMethods] at h
  simp [handleSynchronousMethods, h.1, h.2.1, h.2.2]

theorem handleSub_none (env : Env) (req : JSONRPCRequest)
    (h : req.method ∉ subMethods) :
    handleSubscriptionMethods env req = none := by
  simp [subMethods] at h
  simp [handleSubscriptionMethods, h.1, h.2]

theorem handleAsync_passthrough (env : Env) (req : JSONRPCRequest)
    (h : req.method ∉ mappedAsyncMethods) :
    handleAsynchronousMethods env req
      = ofExcept (env.kaikasSendAsyncRet (reqToVal req)) := by
  simp [mappedAsyncMethods] at h
  obtain ⟨h1, h2, h3, h4, h5, h6, h7, h8, h9, h10, h11⟩ := h
  simp [handleAsynchronousMethods, h1, h2, h3, h4, h5, h6, h7, h8, h9, h10, h11]

/-- Whether one string occurs inside another (case-sensitive). -/
def strContains (hay pat : String) : Bool :=
  containsSub hay.data pat.data

theorem strContains_middle (a m b : String) :
    strContains (a ++ m ++ b) m = true := by
  unfold strContains containsSub
  rw [List.any_eq_true]
  refine ⟨a.data.length, ?_, ?_⟩
  · rw [List.mem_range]
    have hd : ((a ++ m ++ b) : String).data = a.data ++ (m.data ++ b.data) := by
      simp [String.data_append]
    rw [hd]
    simp
    omega
  · have hd : ((a ++ m ++ b) : String).data = a.data ++ (m.data ++ b.data) := by
      simp [String.data_append]
    rw [hd, List.drop_left]
    exact List.isPrefixOf_iff_prefix.mpr (List.prefix_append _ _)

/-- The unsupported-without-callback message literally names the method
(twice); instance of `strContains_middle`. -/
theorem unsupportedSyncMsg_names_method (m : String) :
    strContains (unsupportedSyncMsg m) m = true := by
  have h : unsupportedSyncMsg m
      = "Kaikas Wallet does not support calling " ++ m ++
        (" synchronously without a callback. Please provide a callback parameter to call "
          ++ m ++ " asynchronously.") := by
    simp [unsupportedSyncMsg, String.append_assoc]
  rw [h]
  exact strContains_middle _ m _

/-- The synchronous handler reads the environment only through the current
network version. -/
theorem handleSync_env_irrelevant (env env' : Env) (addresses : List String)
    (req : JSONRPCRequest) (h : env.networkVersion = env'.networkVersion) :
    handleSynchronousMethods env addresses req
      = handleSynchronousMethods env' addresses req := by
  simp [handleSynchronousMethods, net_version, eth_chainId, h]

/-- One request outside the synchronous set makes the whole no-callback batch
call throw. -/
theorem sendManySync_err_of_bad (env : Env) (addresses : List String) :
    ∀ reqs : List JSONRPCRequest, (∃ r ∈ reqs, r.method ∉ syncMethods) →
      ∃ e, sendManySync env addresses reqs = .error e := by
  intro reqs
  induction reqs with
  | nil => rintro ⟨r, hr, -⟩; cases hr
  | cons a rest ih =>
      rintro ⟨r, hr, hm⟩
      rcases List.mem_cons.mp hr with rfl | hr'
      · exact ⟨.error (.str (unsupportedSyncMsg r.method)),
          by simp [sendManySync, sendRequest,
            handleSync_none env addresses r hm]⟩
      · cases hs : sendRequest env addresses a with
        | error e => exact ⟨e, by simp [sendManySync, hs]⟩
        | ok v =>
            obtain ⟨e, he⟩ := ih ⟨r, hr', hm⟩
            exact ⟨e, by simp [sendManySync, hs, he]⟩

/-! ## Concrete fixtures (used by witnesses and counterexamples) -/

/-- A baseline environment: chain id "1001", all collaborators inert. -/
def envBase : Env where
  networkVersion := "1001"
  selectedAddress := .str "0xSEL"
  enableRes := .ok []
  kaikasSendAsyncCb := fun _ => (none, .undefined)
  kaikasSendAsyncRet := fun _ => .ok .undefined
  caverSign := fun _ _ => .ok .undefined
  caverRecover := fun _ _ => .ok .undefined
  caverSendTransaction := fun _ => .ok .undefined
  caverSignTransaction := fun _ => .ok .undefined
  caverGetGasPrice := .ok .undefined
  caverGetBlockNumber := .ok .undefined
  caverGetBlockByNumber := fun _ _ => .ok .undefined
  caverGetTransactionReceipt := fun _ => .ok .undefined
  subHandle := fun _ => .ok .undefined

/-- An accounts request with a nonzero id. -/
def reqAcc : JSONRPCRequest :=
  { jsonrpc := "2.0", id := 42, method := "eth_accounts", params := [] }

/-- A request for a method outside every handled set. -/
def reqFoo : JSONRPCRequest :=
  { jsonrpc := "2.0", id := 7, method := "foo_bar", params := [] }

/-- A chain-id request with a nonzero id. -/
def reqChain : JSONRPCRequest :=
  { jsonrpc := "2.0", id := 9, method := "eth_chainId", params := [] }

/-! ## The claims -/

/-- C1: every Response delivered by the asynchronous pipeline — synchronous,
subscription or (mapped-)asynchronous path — carries an id equal to the id of
the Request it answers, even though the internal method handlers build their
responses with a placeholder id 0 (shown for the gas-price handler). -/
theorem C1_response_id_matches_request (env : Env) (addresses : List String)
    (req : JSONRPCRequest) (v g : Val) :
    (sendRequestAsync env addresses req = .resolved v →
       getField v "id" = .num req.id)
    ∧ (env.caverGetGasPrice = .ok g →
       eth_getGasPrice env = .ok (mkResponseVal 0 g)) := by
  refine ⟨sendRequestAsync_id env addresses req v, fun h => ?_⟩
  simp [eth_getGasPrice, h]

/-- C1 witness: concrete run on the accounts path (request id 42) and the
gas-price handler (placeholder id 0). -/
theorem C1_witness :
    getField (mkResponseVal 42 (.arr [.str "0xA"])) "id" = .num 42
    ∧ eth_getGasPrice { envBase with caverGetGasPrice := .ok (.str "0x19") }
        = .ok (mkResponseVal 0 (.str "0x19")) :=
  ⟨(C1_response_id_matches_request envBase ["0xA"] reqAcc
      (mkResponseVal 42 (.arr [.str "0xA"])) (.str "0x19")).1 rfl,
   (C1_response_id_matches_request
      { envBase with caverGetGasPrice := .ok (.str "0x19") } [] reqAcc
      (mkResponseVal 42 (.arr [.str "0xA"])) (.str "0x19")).2 rfl⟩

/-- A caver client that rejects the send with the JS value `undefined` and
the sign with `null`. -/
def envNullReject : Env :=
  { envBase with
      caverSendTransaction := fun _ => .error (.raw .undefined),
      caverSignTransaction := fun _ => .error (.raw .null) }

/-- C6 counterexample: a collaborator failure whose nullish payload carries
no "denied"/"rejected" message is one of the "other failures", yet it does
NOT propagate to the caller unchanged — the catch block's
`typeof err.message` probe throws a TypeError that replaces it. -/
theorem C6_counterexample :
    eth_sendTransaction envNullReject [] = .error .typeError
    ∧ eth_sendTransaction envNullReject [] ≠ .error (.raw .undefined)
    ∧ eth_signTransaction envNullReject [] = .error .typeError
    ∧ eth_signTransaction envNullReject [] ≠ .error (.raw .null) := by
  have hs : eth_sendTransaction envNullReject [] = .error .typeError := rfl
  have hg : eth_signTransaction envNullReject [] = .error .typeError := rfl
  refine ⟨hs, ?_, hg, ?_⟩
  · rw [hs]; simp
  · rw [hg]; simp

/-- C6 as amended: for the sign- and send-transaction translations, when the
catch block's message probe (`typeof err.message`) evaluates without
throwing, a failure whose message matches "denied"/"rejected"
case-insensitively is re-signaled as the standardized user-rejection error
(losing the original message) and every other such failure propagates
unchanged; a nullish failure payload instead makes the probe itself throw a
TypeError, which replaces the original failure. -/
theorem C6_amended_rejection_heuristic (env : Env) (params : List Val)
    (e te : Err) (msg : Option String) :
    (env.caverSendTransaction (getParam params 0) = .error e →
       (errMessage e = .ok msg →
          (isUserRejectionMsg msg = true →
             eth_sendTransaction env params
               = .error (.ethUserRejected "User denied transaction signature"))
          ∧ (isUserRejectionMsg msg = false →
             eth_sendTransaction env params = .error e))
       ∧ (errMessage e = .error te →
          eth_sendTransaction env params = .error te))
    ∧ (env.caverSignTransaction (getParam params 0) = .error e →
       (errMessage e = .ok msg →
          (isUserRejectionMsg msg = true →
             eth_signTransaction env params
               = .error (.ethUserRejected "User denied transaction signature"))
          ∧ (isUserRejectionMsg msg = false →
             eth_signTransaction env params = .error e))
       ∧ (errMessage e = .error te →
          eth_signTransaction env params = .error te)) := by
  constructor
  · intro h
    constructor
    · intro hm
      constructor <;> intro hr <;> simp [eth_sendTransaction, h, hm, hr]
    · intro hm
      simp [eth_sendTransaction, h, hm]
  · intro h
    constructor
    · intro hm
      constructor <;> intro hr <;> simp [eth_signTransaction, h, hm, hr]
    · intro hm
      simp [eth_signTransaction, h, hm]

/-- An environment whose send-transaction fails with a mixed-case "denied"
message and whose sign-transaction fails with an unrelated message. -/
def envDenied : Env :=
  { envBase with
      caverSendTransaction := fun _ => .error (.error (.str "User DeNiEd the tx")),
      caverSignTransaction := fun _ => .error (.error (.str "network down")) }

/-- C6 witness: the mixed-case "DeNiEd" failure is re-signaled as the
standardized user rejection; the "network down" failure propagates
unchanged; the `undefined` rejection payload is replaced by the probe's
TypeError. -/
theorem C6_amended_witness :
    eth_sendTransaction envDenied []
      = .error (.ethUserRejected "User denied transaction signature")
    ∧ eth_signTransaction envDenied [] = .error (.error (.str "network down"))
    ∧ eth_sendTransaction envNullReject [] = .error .typeError :=
  ⟨(((C6_amended_rejection_heuristic envDenied []
        (.error (.str "User DeNiEd the tx")) .typeError
        (some "User DeNiEd the tx")).1 rfl).1 rfl).1 (by decide),
   (((C6_amended_rejection_heuristic envDenied []
        (.error (.str "network down")) .typeError
        (some "network down")).2 rfl).1 rfl).2 (by decide),
   ((C6_amended_rejection_heuristic envNullReject []
        (.raw .undefined) .typeError none).1 rfl).2 rfl⟩

/-- C8 counterexample: `sendAsync` is an `async` function, so a missing
callback does NOT surface as a synchronous throw — the call returns a
promise that rejects with the 'callback is required' error. -/
theorem C8_counterexample :
    sendAsync envBase [] (.single reqFoo) none []
      = .promiseRejected (.error (.str "callback is required"))
    ∧ ∀ e, sendAsync envBase [] (.single reqFoo) none [] ≠ .threw e :=
  ⟨rfl, fun _ h => SendAsyncOutcome.noConfusion h⟩

/-- C8 as amended: for every invocation of `sendAsync` whose callback
argument is not a function, the returned promise rejects with the
'callback is required' error; nothing is thrown synchronously. -/
theorem C8_amended_rejected_promise (env : Env) (addresses : List String)
    (arg : ReqArg) (sched : List (POutcome Val)) :
    sendAsync env addresses arg none sched
      = .promiseRejected (.error (.str "callback is required")) := rfl

/-- C10: in the generic remote-call translation (`_eth_call`) and the native
watch-asset call, the wallet-callback handler dereferences `result.result`
without a null check: invoked with an error and a `null`/`undefined` result,
it throws a TypeError out of the callback instead of rejecting the promise
with that error. -/
theorem C10_null_result_throws (e : Err) (v : Val)
    (h : v = .null ∨ v = .undefined) :
    eth_call_cbHandler (some e) v = .throws .typeError
    ∧ watchAsset_cbHandler (some e) v = .throws .typeError
    ∧ (∀ x, eth_call_cbHandler (some e) v ≠ .rejects x)
    ∧ (∀ x, watchAsset_cbHandler (some e) v ≠ .rejects x) := by
  rcases h with h | h <;> subst h <;>
    refine ⟨rfl, rfl, fun x hx => ?_, fun x hx => ?_⟩ <;>
    simp [eth_call_cbHandler, watchAsset_cbHandler, getMember] at hx

/-- C10 witness: a wallet failure delivered as `(err, null)`. -/
theorem C10_witness :
    eth_call_cbHandler (some (.error (.str "wallet failure"))) .null
      = .throws .typeError
    ∧ watchAsset_cbHandler (some (.error (.str "wallet failure"))) .null
      = .throws .typeError :=
  ⟨(C10_null_result_throws (.error (.str "wallet failure")) .null (.inl rfl)).1,
   (C10_null_result_throws (.error (.str "wallet failure")) .null (.inl rfl)).2.1⟩

/-- C5: `send` without a callback consults only the synchronous handler: a
synchronous-set method returns a response carrying the request id and the
handler's result; any other method throws the descriptive error that names
the method; the result does not depend on any asynchronous collaborator (only
the cached state the synchronous handler reads); and in a batch one
unsupported method fails the whole call. -/
theorem C5_send_without_callback (env env' : Env) (addresses : List String)
    (req : JSONRPCRequest) (reqs : List JSONRPCRequest) :
    (req.method ∉ syncMethods →
       sendRequest env addresses req
         = .error (.error (.str (unsupportedSyncMsg req.method)))
       ∧ strContains (unsupportedSyncMsg req.method) req.method = true)
    ∧ (req.method ∈ syncMethods →
       ∃ v, sendRequest env addresses req = .ok (mkResponseVal req.id v))
    ∧ (env.networkVersion = env'.networkVersion →
       sendRequest env addresses req = sendRequest env' addresses req)
    ∧ ((∃ r ∈ reqs, r.method ∉ syncMethods) →
       ∃ e, sendManySync env addresses reqs = .error e) := by
  refine ⟨fun h => ?_, fun h => ?_, fun h => ?_, sendManySync_err_of_bad env addresses reqs⟩
  · exact ⟨by simp [sendRequest, handleSync_none env addresses req h],
      unsupportedSyncMsg_names_method req.method⟩
  · simp only [syncMethods, List.mem_cons, List.not_mem_nil, or_false] at h
    rcases h with h | h | h
    · exact ⟨eth_accounts addresses,
        by simp [sendRequest, handleSynchronousMethods, h]⟩
    · exact ⟨net_version env,
        by simp [sendRequest, handleSynchronousMethods, h]⟩
    · exact ⟨eth_chainId env,
        by simp [sendRequest, handleSynchronousMethods, h]⟩
  · simp [sendRequest, handleSync_env_irrelevant env env' addresses req h]

/-- C5 witness: an unknown method throws the descriptive error; an
accounts request succeeds with its own id; the unknown member fails a batch;
the result is collaborator-independent. -/
theorem C5_witness :
    (sendRequest envBase [] reqFoo
       = .error (.error (.str (unsupportedSyncMsg "foo_bar")))
     ∧ strContains (unsupportedSyncMsg "foo_bar") "foo_bar" = true)
    ∧ (∃ v, sendRequest envBase ["0xA"] reqAcc = .ok (mkResponseVal 42 v))
    ∧ (∃ e, sendManySync envBase [] [reqAcc, reqFoo] = .error e) :=
  ⟨(C5_send_without_callback envBase envBase [] reqFoo []).1 (by decide),
   (C5_send_without_callback envBase envBase ["0xA"] reqAcc []).2.1 (by decide),
   (C5_send_without_callback envBase envBase [] reqChain [reqAcc, reqFoo]).2.2.2
     ⟨reqFoo, by simp [reqFoo, reqAcc], by decide⟩⟩

/-- An environment whose wallet `sendAsync`, were it invoked with a callback,
would report success — but whose no-callback form returns `undefined`. -/
def envCbSuccess : Env :=
  { envBase with kaikasSendAsyncCb := fun _ => (none, .obj [("result", .str "0x1")]) }

/-- C4 counterexample: for a method outside every handled set the wallet's
callback-based call would succeed, yet the pipeline's promise never settles —
the passthrough invokes the native call without any callback, so nothing is
adapted into the promise. -/
theorem C4_counterexample :
    envCbSuccess.kaikasSendAsyncCb (reqToVal reqFoo)
      = (none, .obj [("result", .str "0x1")])
    ∧ sendRequestAsync envCbSuccess [] reqFoo = .pending
    ∧ (∀ v, sendRequestAsync envCbSuccess [] reqFoo ≠ .resolved v)
    ∧ (∀ e, sendRequestAsync envCbSuccess [] reqFoo ≠ .rejected e) := by
  have hp : sendRequestAsync envCbSuccess [] reqFoo = .pending := rfl
  exact ⟨rfl, hp, fun v h => by rw [hp] at h; simp at h,
    fun e h => by rw [hp] at h; simp at h⟩

/-- C4 as amended: a method outside the synchronous, subscription and mapped
asynchronous sets is forwarded verbatim to the wallet's native `sendAsync`,
invoked WITHOUT a callback.  The pipeline rejects if that call throws,
resolves with the call's returned value (id overridden) if it is truthy, and
never settles otherwise; no callback-based result is adapted into the
promise. -/
theorem C4_amended_passthrough (env : Env) (addresses : List String)
    (req : JSONRPCRequest) (e : Err) (v : Val)
    (hm : req.method ∉ allHandledMethods) :
    (env.kaikasSendAsyncRet (reqToVal req) = .error e →
       sendRequestAsync env addresses req = .rejected e)
    ∧ (env.kaikasSendAsyncRet (reqToVal req) = .ok v → truthy v = true →
       sendRequestAsync env addresses req = .resolved (spreadSetId v req.id))
    ∧ (env.kaikasSendAsyncRet (reqToVal req) = .ok v → truthy v = false →
       sendRequestAsync env addresses req = .pending) := by
  rw [allHandledMethods, List.mem_append, List.mem_append] at hm
  push_neg at hm
  obtain ⟨⟨h1, h2⟩, h3⟩ := hm
  have hs := handleSync_none env addresses req h1
  have hb := handleSub_none env req h2
  have ha := handleAsync_passthrough env req h3
  refine ⟨fun h => ?_, fun h ht => ?_, fun h ht => ?_⟩
  · simp [sendRequestAsync, hs, hb, ha, h, ofExcept]
  · simp [sendRequestAsync, hs, hb, ha, h, ofExcept, ht]
  · simp [sendRequestAsync, hs, hb, ha, h, ofExcept, ht]

/-- An environment whose no-callback wallet `sendAsync` throws. -/
def envRetErr : Env :=
  { envBase with
      kaikasSendAsyncRet := fun _ => .error (.error (.str "wallet broke")) }

/-- C4 witness: concrete passthrough behavior for the unknown method — a
throwing native call rejects the pipeline, a falsy (`undefined`) return
leaves it pending forever. -/
theorem C4_witness :
    sendRequestAsync envRetErr [] reqFoo
      = .rejected (.error (.str "wallet broke"))
    ∧ sendRequestAsync envBase [] reqFoo = .pending :=
  ⟨(C4_amended_passthrough envRetErr [] reqFoo
      (.error (.str "wallet broke")) .undefined (by decide)).1 rfl,
   (C4_amended_passthrough envBase [] reqFoo
      (.error (.str "unused")) .undefined (by decide)).2.2 rfl rfl⟩

/-- A callback that throws on its first (successful) invocation. -/
def cbThrowing : CbFuns where
  single := fun _ _ => some (.error (.str "boom"))
  batch := fun _ _ => none

/-- C3 counterexample: when the callback throws after being invoked with a
successful response, the `catch` stage of `.then(cb).catch(cb)` invokes the
callback a SECOND time, with the thrown error — two invocations, not one. -/
theorem C3_counterexample :
    sendAsync envBase [] (.single reqAcc) (some cbThrowing) []
      = .singleDispatched
          [(none, some (mkResponseVal 42 (.arr []))),
           (some (.error (.str "boom")), none)]
    ∧ invocationCount (sendAsync envBase [] (.single reqAcc) (some cbThrowing) []) = 2 :=
  ⟨rfl, rfl⟩

/-- C3 as amended: when the callback itself never throws, `sendAsync` invokes
it at most once — exactly once whenever the dispatched promise settles (for a
passthrough method whose promise never settles it is never invoked); a
callback that throws after a successful result is invoked a second time with
the thrown error (see the counterexample). -/
theorem C3_amended_single_invocation (env : Env) (addresses : List String)
    (arg : ReqArg) (cbs : CbFuns) (sched : List (POutcome Val))
    (h1 : ∀ e r, cbs.single e r = none) (h2 : ∀ e r, cbs.batch e r = none) :
    invocationCount (sendAsync env addresses arg (some cbs) sched) ≤ 1
    ∧ (∀ req, arg = .single req →
        sendRequestAsync env addresses req ≠ .pending →
        invocationCount (sendAsync env addresses arg (some cbs) sched) = 1)
    ∧ (∀ reqs, arg = .batch reqs →
        sendMultipleRequestsAsync env addresses reqs sched ≠ .pending →
        invocationCount (sendAsync env addresses arg (some cbs) sched) = 1) := by
  cases arg with
  | single req0 =>
      refine ⟨?_, ?_, ?_⟩
      · cases hp : sendRequestAsync env addresses req0 <;>
          simp [sendAsync, thenCatchCb, invocationCount, hp, h1]
      · intro req heq hnp
        cases heq
        cases hp : sendRequestAsync env addresses req0 with
        | pending => exact absurd hp hnp
        | resolved v => simp [sendAsync, thenCatchCb, invocationCount, hp, h1]
        | rejected e => simp [sendAsync, thenCatchCb, invocationCount, hp]
      · intro reqs heq hnp
        simp at heq
  | batch reqs0 =>
      refine ⟨?_, ?_, ?_⟩
      · cases hp : sendMultipleRequestsAsync env addresses reqs0 sched <;>
          simp [sendAsync, thenCatchCb, invocationCount, hp, h2]
      · intro req heq hnp
        simp at heq
      · intro reqs heq hnp
        cases heq
        cases hp : sendMultipleRequestsAsync env addresses reqs0 sched with
        | pending => exact absurd hp hnp
        | resolved v => simp [sendAsync, thenCatchCb, invocationCount, hp, h2]
        | rejected e => simp [sendAsync, thenCatchCb, invocationCount, hp]

/-- A callback that never throws. -/
def cbBenign : CbFuns where
  single := fun _ _ => none
  batch := fun _ _ => none

/-- C3 witness: with a non-throwing callback, the single accounts request
invokes it exactly once. -/
theorem C3_witness :
    invocationCount (sendAsync envBase [] (.single reqAcc) (some cbBenign) []) ≤ 1
    ∧ invocationCount (sendAsync envBase [] (.single reqAcc) (some cbBenign) []) = 1 :=
  ⟨(C3_amended_single_invocation envBase [] (.single reqAcc) cbBenign []
      (fun _ _ => rfl) (fun _ _ => rfl)).1,
   (C3_amended_single_invocation envBase [] (.single reqAcc) cbBenign []
      (fun _ _ => rfl) (fun _ _ => rfl)).2.1 reqAcc rfl
      (fun h => POutcome.noConfusion h)⟩

/-- C2: for a batch of N requests through `sendAsync`, whenever every
member's pipeline resolves, the callback is invoked once with a response
sequence of length N whose element at each index is the response of the
request at the same index (and carries that request's id), for EVERY
completion order (`sched` ranges over all permutations of the member
promises). -/
theorem C2_batch_preserves_order (env : Env) (addresses : List String)
    (reqs : List JSONRPCRequest) (sched : List (POutcome Val)) (cbs : CbFuns)
    (hres : ∀ r ∈ reqs, (sendRequestAsync env addresses r).isResolved = true)
    (hperm : sched.Perm (reqs.map (sendRequestAsync env addresses)))
    (hcb : ∀ e r, cbs.batch e r = none) :
    ∃ vs, sendAsync env addresses (.batch reqs) (some cbs) sched
            = .batchDispatched [(none, some vs)]
      ∧ vs.length = reqs.length
      ∧ ∀ i : Fin reqs.length,
          vs.getD i .undefined
            = resolvedValD (sendRequestAsync env addresses (reqs.get i))
          ∧ getField (vs.getD i .undefined) "id" = .num (reqs.get i).id := by
  have hres' : ∀ p ∈ reqs.map (sendRequestAsync env addresses),
      p.isResolved = true := by
    intro p hp
    obtain ⟨r, hr, rfl⟩ := List.mem_map.mp hp
    exact hres r hr
  have hall := promiseAll_allResolved
    (reqs.map (sendRequestAsync env addresses)) sched hperm hres'
  refine ⟨(reqs.map (sendRequestAsync env addresses)).map resolvedValD,
    ?_, by simp, ?_⟩
  · simp [sendAsync, sendMultipleRequestsAsync, hall, thenCatchCb, hcb]
  · intro i
    have hget : ((reqs.map (sendRequestAsync env addresses)).map
          resolvedValD).getD i .undefined
        = resolvedValD (sendRequestAsync env addresses (reqs.get i)) := by
      rw [List.getD_eq_getElem _ _ (by simp [i.isLt])]
      simp
    refine ⟨hget, ?_⟩
    rw [hget]
    exact sendRequestAsync_id env addresses (reqs.get i) _
      (eq_resolved_of_isResolved (hres (reqs.get i) (List.get_mem reqs i.1 i.2)))

/-- C2 witness: a concrete two-request batch (chain id then accounts),
observed under the reversed completion order, still yields the responses in
input order with matching ids. -/
theorem C2_witness :
    ∃ vs, sendAsync envBase ["0xA"] (.batch [reqChain, reqAcc]) (some cbBenign)
            [sendRequestAsync envBase ["0xA"] reqAcc,
             sendRequestAsync envBase ["0xA"] reqChain]
            = .batchDispatched [(none, some vs)]
      ∧ vs.length = ([reqChain, reqAcc] : List JSONRPCRequest).length
      ∧ ∀ i : Fin ([reqChain, reqAcc] : List JSONRPCRequest).length,
          vs.getD i .undefined
            = resolvedValD (sendRequestAsync envBase ["0xA"]
                (([reqChain, reqAcc] : List JSONRPCRequest).get i))
          ∧ getField (vs.getD i .undefined) "id"
            = .num (([reqChain, reqAcc] : List JSONRPCRequest).get i).id := by
  have h := C2_batch_preserves_order envBase ["0xA"] [reqChain, reqAcc]
    [sendRequestAsync envBase ["0xA"] reqAcc,
     sendRequestAsync envBase ["0xA"] reqChain] cbBenign
    (by
      intro r hr
      rcases List.mem_cons.mp hr with rfl | hr'
      · exact rfl
      · rcases List.mem_cons.mp hr' with rfl | h0
        · exact rfl
        · cases h0)
    (List.Perm.swap
        (sendRequestAsync envBase ["0xA"] reqChain)
        (sendRequestAsync envBase ["0xA"] reqAcc) [])
    (fun _ _ => rfl)
  exact h

/-- C9: the accounts-list method reads only the cached address list — empty
before authorization, exactly the enabled addresses afterwards; `enable`
caches the wallet's addresses on first success and, while the cache is
nonempty, returns a copy without re-invoking the wallet's `enable` (the
instrumentation counter does not move). -/
theorem C9_accounts_cache (env : Env) (st : EnableState) :
    sendPromise env [] "eth_accounts" [] = .resolved (.arr [])
    ∧ (st.addresses = [] → env.enableRes = .ok ["0xA", "0xB"] →
        enable env st = (.ok ["0xA", "0xB"],
          { addresses := ["0xA", "0xB"], enableCalls := st.enableCalls + 1 }))
    ∧ sendPromise env ["0xA", "0xB"] "eth_accounts" []
        = .resolved (.arr [.str "0xA", .str "0xB"])
    ∧ (st.addresses ≠ [] → enable env st = (.ok st.addresses, st)) := by
  refine ⟨rfl, fun h1 h2 => ?_, rfl, fun h => ?_⟩
  · simp [enable, h1, h2]
  · have hl : st.addresses.length > 0 := List.length_pos.mpr h
    simp [enable, hl]

/-- The wallet grants two addresses on authorization. -/
def envEnable : Env := { envBase with enableRes := .ok ["0xA", "0xB"] }

/-- C9 witness: enabling from the empty cache stores ["0xA", "0xB"] and
counts one wallet call; a repeated enable returns the cache and the counter
stays at 1; the accounts call then answers with exactly those addresses. -/
theorem C9_witness :
    enable envEnable ⟨[], 0⟩ = (.ok ["0xA", "0xB"], ⟨["0xA", "0xB"], 1⟩)
    ∧ enable envEnable ⟨["0xA", "0xB"], 1⟩ = (.ok ["0xA", "0xB"], ⟨["0xA", "0xB"], 1⟩)
    ∧ sendPromise envEnable ["0xA", "0xB"] "eth_accounts" []
        = .resolved (.arr [.str "0xA", .str "0xB"]) :=
  ⟨(C9_accounts_cache envEnable ⟨[], 0⟩).2.1 rfl rfl,
   (C9_accounts_cache envEnable ⟨["0xA", "0xB"], 1⟩).2.2.2 (by simp),
   (C9_accounts_cache envEnable ⟨[], 0⟩).2.2.1⟩

/-- C7: every watch-asset request whose `type` is missing (falsy) or not the
single supported `'ERC20'`, or whose `options` or `options.address` is
missing, fails with the invalid-params error naming the offending field, and
the wallet's native call is never reached (instrumentation flag `false`). -/
theorem C7_watch_asset_validation (env : Env) (params : List Val)
    (ty opts addr : Val)
    (hty : getMember (getParam params 0) "type" = .ok ty) :
    (truthy ty = false →
       wallet_watchAssetC env params
         = (.rejected (.ethInvalidParams "Type is required"), false))
    ∧ (truthy ty = true → ty.isStr "ERC20" = false →
       wallet_watchAssetC env params
         = (.rejected (.ethInvalidParams
             ("Asset of type '" ++ jsToString ty ++ "' is not supported")), false))
    ∧ (ty = .str "ERC20" →
       getMember (getParam params 0) "options" = .ok opts →
       ((truthy opts = false →
           wallet_watchAssetC env params
             = (.rejected (.ethInvalidParams "Options are required"), false))
        ∧ (truthy opts = true →
           getMember opts "address" = .ok addr → truthy addr = false →
           wallet_watchAssetC env params
             = (.rejected (.ethInvalidParams "Address is required"), false)))) := by
  refine ⟨fun hf => ?_, fun ht hne => ?_, fun he hopt => ?_⟩
  · simp [wallet_watchAssetC, hty, hf]
  · simp [wallet_watchAssetC, hty, ht, hne]
  · subst he
    have htr : truthy (.str "ERC20") = true := rfl
    have hstr : (Val.str "ERC20").isStr "ERC20" = true := rfl
    refine ⟨fun hof => ?_, fun hot haddr haf => ?_⟩
    · simp [wallet_watchAssetC, hty, hopt, htr, hstr, hof]
    · simp [wallet_watchAssetC, hty, hopt, htr, hstr, hot, haddr, haf]

/-- The unsupported-type watch-asset request of the spec's scenario. -/
def watchParamsERC721 : List Val :=
  [.obj [("type", .str "ERC721"), ("options", .obj [("address", .str "0x1")])]]

/-- A watch-asset request missing its options. -/
def watchParamsNoOptions : List Val :=
  [.obj [("type", .str "ERC20")]]

/-- C7 witness: the `ERC721` request fails with the invalid-params error
naming the type and the native call is never invoked; the request missing
`options` fails likewise. -/
theorem C7_witness :
    wallet_watchAssetC envBase watchParamsERC721
      = (.rejected (.ethInvalidParams "Asset of type 'ERC721' is not supported"),
         false)
    ∧ wallet_watchAssetC envBase watchParamsNoOptions
      = (.rejected (.ethInvalidParams "Options are required"), false) :=
  ⟨(C7_watch_asset_validation envBase watchParamsERC721
      (.str "ERC721") .undefined .undefined rfl).2.1 rfl rfl,
   ((C7_watch_asset_validation envBase watchParamsNoOptions
      (.str "ERC20") .undefined .undefined rfl).2.2 rfl rfl).1 rfl⟩

end KaikasProvider
